import Mathlib

/-!
Verification of the smart-mac-organizer core (src/src/organizer.py) via a
shallow embedding in Lean.  Pure helpers become Lean functions; Python
machine floats become exact rationals; the filesystem is a list of path
strings threaded through the disposition executor; fallible OS calls are
oracle booleans.  Characters are handled through an explicit fragment of
the Unicode character data (lowercase map, NFD/NFKD decomposition,
combining-mark set) covering every character the program's keyword tables
and the concrete inputs below use; characters outside the fragment are
fixed points, mirroring that they carry no case mapping, no decomposition
and no combining class.
-/

/-- Fragment of the Unicode lowercase mapping used by Python `str.lower`:
ASCII uppercase plus the accented uppercase letters relevant here.  Any
character not listed maps to itself. -/
def lowerTable : List (Char × Char) :=
  [('A', 'a'), ('B', 'b'), ('C', 'c'), ('D', 'd'), ('E', 'e'), ('F', 'f'),
   ('G', 'g'), ('H', 'h'), ('I', 'i'), ('J', 'j'), ('K', 'k'), ('L', 'l'),
   ('M', 'm'), ('N', 'n'), ('O', 'o'), ('P', 'p'), ('Q', 'q'), ('R', 'r'),
   ('S', 's'), ('T', 't'), ('U', 'u'), ('V', 'v'), ('W', 'w'), ('X', 'x'),
   ('Y', 'y'), ('Z', 'z'),
   ('Á', 'á'), ('À', 'à'), ('Â', 'â'), ('Ã', 'ã'), ('Ä', 'ä'),
   ('É', 'é'), ('Ê', 'ê'), ('Í', 'í'), ('Ó', 'ó'), ('Ô', 'ô'),
   ('Õ', 'õ'), ('Ú', 'ú'), ('Ü', 'ü'), ('Ç', 'ç')]

/-- Python/Unicode lowercase of a single character (fragment). -/
def lowerChar (c : Char) : Char :=
  match lowerTable.find? (fun p => p.1 == c) with
  | some p => p.2
  | none => c

/-- The combining marks appearing in the decompositions of the fragment:
U+0300 grave, U+0301 acute, U+0302 circumflex, U+0303 tilde,
U+0308 diaeresis, U+0327 cedilla. -/
def combiningMarks : List Char :=
  [Char.ofNat 0x300, Char.ofNat 0x301, Char.ofNat 0x302,
   Char.ofNat 0x303, Char.ofNat 0x308, Char.ofNat 0x327]

/-- `unicodedata.combining(c) != 0` / category `Mn`, restricted to the
fragment: exactly the combining marks above (for the characters involved
here the two tests agree). -/
def isCombiningChar (c : Char) : Bool := combiningMarks.contains c

/-- Canonical (NFD = NFKD on this fragment) decomposition of a single
character: each precomposed Latin letter splits into its base letter
followed by a combining mark; all other characters are their own
decomposition. -/
def decompTable : List (Char × List Char) :=
  [('á', ['a', Char.ofNat 0x301]), ('à', ['a', Char.ofNat 0x300]),
   ('â', ['a', Char.ofNat 0x302]), ('ã', ['a', Char.ofNat 0x303]),
   ('ä', ['a', Char.ofNat 0x308]), ('é', ['e', Char.ofNat 0x301]),
   ('ê', ['e', Char.ofNat 0x302]), ('í', ['i', Char.ofNat 0x301]),
   ('ó', ['o', Char.ofNat 0x301]), ('ô', ['o', Char.ofNat 0x302]),
   ('õ', ['o', Char.ofNat 0x303]), ('ú', ['u', Char.ofNat 0x301]),
   ('ü', ['u', Char.ofNat 0x308]), ('ç', ['c', Char.ofNat 0x327])]

/-- `unicodedata.normalize("NFKD", ·)` on a single character (fragment). -/
def decompChar (c : Char) : List Char :=
  match decompTable.find? (fun p => p.1 == c) with
  | some p => p.2
  | none => [c]

/-- One character pushed through `DomainScorer._norm`'s pipeline
(`text.lower()`, NFKD decomposition, drop combining marks); the string
pipeline is character-wise. -/
def normChar (c : Char) : List Char :=
  (decompChar (lowerChar c)).filter (fun d => !isCombiningChar d)

/-- `DomainScorer._norm` (organizer.py lines 168-173): lowercase, NFKD
decomposition, remove combining characters; empty input stays empty. -/
def DomainScorer_norm (text : String) : String := ⟨text.data.flatMap normChar⟩

/-- Python whitespace for `str.split()` / `str.strip()` (ASCII fragment). -/
def isPySpace (c : Char) : Bool :=
  c == ' ' || c == '\t' || c == '\n' || c == '\x0d' || c == '\x0c' || c == '\x0b'

/-- Python `str.strip()` on the character list. -/
def pyStrip (l : List Char) : List Char :=
  ((l.dropWhile isPySpace).reverse.dropWhile isPySpace).reverse

/-- `SmartOrganizer._normalize_string` (organizer.py lines 273-279):
`text.lower().strip()`, NFD decomposition, remove category-Mn marks.  On
this fragment NFD and NFKD coincide and category Mn is the combining-mark
set. -/
def normalize_string (text : String) : String :=
  ⟨(pyStrip (text.data.map lowerChar)).flatMap (fun c =>
      (decompChar c).filter (fun d => !isCombiningChar d))⟩

-- Closure of the character fragment: every character output by `normChar`
-- is itself a `normChar` fixed point.

/-- All characters touched by the tables (inputs and outputs). -/
def fragmentChars : List Char :=
  lowerTable.map (fun p => p.1) ++ lowerTable.map (fun p => p.2) ++
    decompTable.map (fun p => p.1) ++ (decompTable.map (fun p => p.2)).flatten ++
    combiningMarks

theorem fragment_closed :
    fragmentChars.all (fun c => (normChar c).all (fun d => normChar d == [d])) = true := by
  decide

theorem lowerChar_default (c : Char) (h : c ∉ lowerTable.map (fun p => p.1)) :
    lowerChar c = c := by
  unfold lowerChar
  have hf : lowerTable.find? (fun p => p.1 == c) = none := by
    rw [List.find?_eq_none]
    intro p hp
    simp only [beq_iff_eq]
    intro hpc
    exact h (by simpa [hpc] using List.mem_map_of_mem (fun p => p.1) hp)
  rw [hf]

theorem decompChar_default (c : Char) (h : c ∉ decompTable.map (fun p => p.1)) :
    decompChar c = [c] := by
  unfold decompChar
  have hf : decompTable.find? (fun p => p.1 == c) = none := by
    rw [List.find?_eq_none]
    intro p hp
    simp only [beq_iff_eq]
    intro hpc
    exact h (by simpa [hpc] using List.mem_map_of_mem (fun p => p.1) hp)
  rw [hf]

theorem isCombining_default (c : Char) (h : c ∉ combiningMarks) :
    isCombiningChar c = false := by
  unfold isCombiningChar
  simpa using h

/-- Every character produced by `normChar` is a `normChar` fixed point. -/
theorem normChar_closed (c : Char) : ∀ d ∈ normChar c, normChar d = [d] := by
  by_cases hc : c ∈ fragmentChars
  · intro d hd
    have h1 := List.all_eq_true.mp fragment_closed c hc
    have h2 := List.all_eq_true.mp h1 d hd
    exact eq_of_beq h2
  · have hl : c ∉ lowerTable.map (fun p => p.1) := by
      intro h; exact hc (by unfold fragmentChars; simp [h])
    have hlow : lowerChar c = c := lowerChar_default c hl
    have hdmem : c ∉ decompTable.map (fun p => p.1) := by
      intro h; exact hc (by unfold fragmentChars; simp [h])
    have hdc : decompChar c = [c] := decompChar_default c hdmem
    have hcm : c ∉ combiningMarks := by
      intro h; exact hc (by unfold fragmentChars; simp [h])
    have hcomb : isCombiningChar c = false := isCombining_default c hcm
    intro d hd
    unfold normChar at hd ⊢
    rw [hlow, hdc] at hd
    simp [hcomb] at hd
    subst hd
    rw [hlow, hdc]
    simp [hcomb]

theorem flatMap_normChar_fixed (m : List Char) (h : ∀ d ∈ m, normChar d = [d]) :
    m.flatMap normChar = m := by
  induction m with
  | nil => rfl
  | cons x xs ih =>
      have hx := h x (by simp)
      have ihx := ih (fun d hd => h d (by simp [hd]))
      simp [List.flatMap_cons, hx, ihx]

theorem flatMap_normChar_idem (l : List Char) :
    (l.flatMap normChar).flatMap normChar = l.flatMap normChar := by
  induction l with
  | nil => rfl
  | cons x xs ih =>
      rw [List.flatMap_cons, List.flatMap_append, ih,
        flatMap_normChar_fixed (normChar x) (normChar_closed x)]

/-- C7: `DomainScorer._norm` is total and idempotent — normalizing an
already-normalized text returns it unchanged — and empty input yields the
empty string. -/
theorem norm_idempotent_and_total :
    (∀ text : String, DomainScorer_norm (DomainScorer_norm text) = DomainScorer_norm text) ∧ DomainScorer_norm "" = "" := by
  constructor
  · intro text
    unfold DomainScorer_norm
    exact congrArg String.mk (flatMap_normChar_idem text.data)
  · rfl

-- ## Generic string helpers shared by several components

/-- Join a directory and a final component, as `Path.__truediv__` renders it. -/
def pathJoin (dir name : String) : String := dir ++ "/" ++ name

/-- Python `s.startswith(p)`. -/
def strStartsWith (s p : String) : Bool := p.data.isPrefixOf s.data

/-- Python `str.lower` on a whole string (character-wise on the fragment). -/
def lowerStr (s : String) : String := ⟨s.data.map lowerChar⟩

/-- Python slice `s[:n]`. -/
def strTake (s : String) (n : Nat) : String := ⟨s.data.take n⟩

/-- Python `pat in s`: contiguous-substring test. -/
def substr (pat s : List Char) : Bool :=
  pat.isPrefixOf s ||
    match s with
    | [] => false
    | _ :: rest => substr pat rest

/-- Index of the last `'.'` in a name (`name.rfind('.')`), if any. -/
def lastDotIdx (l : List Char) : Option Nat :=
  match l.reverse.findIdx? (fun c => c == '.') with
  | none => none
  | some j => some (l.length - 1 - j)

/-- `pathlib.PurePath.suffix` on a path's final component: the part from the
last dot, provided that dot is neither the first nor the last character. -/
def pathSuffix (name : String) : String :=
  match lastDotIdx name.data with
  | none => ""
  | some i => if 0 < i ∧ i + 1 < name.data.length then ⟨name.data.drop i⟩ else ""

/-- `pathlib.PurePath.stem` on a path's final component. -/
def pathStem (name : String) : String :=
  match lastDotIdx name.data with
  | none => name
  | some i => if 0 < i ∧ i + 1 < name.data.length then ⟨name.data.take i⟩ else name

/-- Final component of a path (`Path.name`). -/
def lastComponent (path : String) : String :=
  ⟨(path.data.reverse.takeWhile (fun c => c != '/')).reverse⟩

/-- Python `t.count(token)`: number of non-overlapping occurrences scanning
from the left (`len(t) + 1` for the empty pattern, as in CPython). -/
def countOccs (s pat : List Char) : Nat :=
  if hp : pat = [] then s.length + 1
  else
    match s with
    | [] => 0
    | c :: rest =>
      if pat.isPrefixOf (c :: rest) then countOccs ((c :: rest).drop pat.length) pat + 1
      else countOccs rest pat
termination_by s.length
decreasing_by
  · simp only [List.length_drop, List.length_cons]
    have : 0 < pat.length := List.length_pos.mpr hp
    omega
  · simp

/-- `len(t.split())`: the number of maximal whitespace-free runs. -/
def wordCount (l : List Char) : Nat :=
  match l with
  | [] => 0
  | c :: rest =>
    if isPySpace c then wordCount rest
    else wordCount (rest.dropWhile (fun d => !isPySpace d)) + 1
termination_by l.length
decreasing_by
  · simp
  · have := ((rest.dropWhile_sublist (fun d => !isPySpace d))).length_le
    simp only [List.length_cons]
    omega

-- ## DOMAIN_KEYWORDS (organizer.py lines 75-157)

structure DomainCfg where
  primary : List String
  secondary : List String
deriving DecidableEq

def juridicoCfg : DomainCfg where
  primary :=
    ["procon", "processo", "juiz", "juíza", "advogado", "advogada",
     "intimação", "ação judicial", "sentença", "acórdão", "tribunal",
     "contrato", "cláusula", "procuração"]
  secondary :=
    ["consumidor", "réu", "autor", "reclamante", "acordo", "notificação",
     "prazo de defesa"]

def pessoalSaudeCfg : DomainCfg where
  primary :=
    ["exame", "laudo", "hemograma", "raio x", "tomografia", "ultrassom",
     "ultrassonografia", "consulta", "receita médica", "prescrição",
     "crm", "atestado médico"]
  secondary :=
    ["saúde", "paciente", "laboratório", "clínica", "hospital", "médico",
     "médica", "resultado de exame"]

def financeiroPagamentosCfg : DomainCfg where
  primary :=
    ["boleto", "fatura", "comprovante", "pagamento", "pagto", "pix",
     "nota fiscal", "nfe", "nf-e", "danfe", "recibo"]
  secondary :=
    ["vencimento", "data de vencimento", "valor", "código de barras",
     "banco", "conta", "agência"]

def financeiroFiscalCfg : DomainCfg where
  primary :=
    ["imposto de renda", "irpf", "darf", "das", "guia de recolhimento",
     "declaração", "carnê leão"]
  secondary :=
    ["receita federal", "código de receita", "exercício", "ano-calendário"]

def financeiroInvestCfg : DomainCfg where
  primary :=
    ["extrato", "investimento", "tesouro direto", "cdb", "fii",
     "fundo de investimento", "posição consolidada"]
  secondary :=
    ["corretora", "broker", "custódia", "patrimônio"]

def carreiraGeralCfg : DomainCfg where
  primary :=
    ["currículo", "cv", "holerite", "contracheque", "contrato de trabalho",
     "admissão", "demissão", "folha de pagamento"]
  secondary :=
    ["vaga", "processo seletivo", "recrutamento", "cargo", "função"]

def profissionalTecnicoCfg : DomainCfg where
  primary :=
    ["arquitetura", "diagrama", "roadmap", "proposta técnica",
     "documentação técnica", "infraestrutura", "deploy", "pipeline",
     "especificação técnica", "manual técnico"]
  secondary :=
    ["api", "endpoint", "servidor", "cluster", "dashboard",
     "relatório técnico", "sistema", "plataforma", "ambiente"]

def educacaoEstudosCfg : DomainCfg where
  primary :=
    ["apostila", "exercícios", "lista de exercícios", "prova",
     "simulado", "resumo", "conteúdo programático", "aula",
     "material de estudo", "avaliação"]
  secondary :=
    ["universidade", "faculdade", "curso online", "ead",
     "e-learning", "certificado de conclusão"]

def DOMAIN_KEYWORDS : List (String × DomainCfg) :=
  [("juridico", juridicoCfg),
   ("pessoal_saude", pessoalSaudeCfg),
   ("financeiro_pagamentos", financeiroPagamentosCfg),
   ("financeiro_fiscal", financeiroFiscalCfg),
   ("financeiro_invest", financeiroInvestCfg),
   ("carreira_geral", carreiraGeralCfg),
   ("profissional_tecnico", profissionalTecnicoCfg),
   ("educacao_estudos", educacaoEstudosCfg)]

-- ## DomainScorer.score_domain (organizer.py lines 175-187)

/-- `DomainScorer.score_domain`: 0 for an unknown domain or empty text;
otherwise the weighted keyword-occurrence total on the normalized text,
divided by `max(wordCount, 10) / 50.0`.  Python floats are modelled by
exact rationals. -/
def score_domain (text domain : String) : ℚ :=
  match DOMAIN_KEYWORDS.find? (fun kv => kv.1 == domain) with
  | none => 0
  | some kv =>
    if text == "" then 0
    else
      let t := DomainScorer_norm text
      let s1 := kv.2.primary.foldl
        (fun acc token => acc + 3 * (countOccs t.data token.data : ℚ)) 0
      let s2 := kv.2.secondary.foldl
        (fun acc token => acc + 1 * (countOccs t.data token.data : ℚ)) s1
      s2 / (((max (wordCount t.data) 10 : ℕ) : ℚ) / 50)

/-- The scoring formula in the words of the spec: the sum of `3.0 ×
occurrence count` over primary keywords plus `1.0 × occurrence count` over
secondary keywords, in the normalized text, divided by
`max(wordCount, 10) / 50.0`. -/
def specDomainScore (text : String) (cfg : DomainCfg) : ℚ :=
  let t := DomainScorer_norm text
  ((cfg.primary.map (fun token => 3 * (countOccs t.data token.data : ℚ))).sum +
    (cfg.secondary.map (fun token => 1 * (countOccs t.data token.data : ℚ))).sum) /
    (((max (wordCount t.data) 10 : ℕ) : ℚ) / 50)

theorem foldl_add_eq_sum (f : String → ℚ) (l : List String) (init : ℚ) :
    l.foldl (fun acc x => acc + f x) init = init + (l.map f).sum := by
  induction l generalizing init with
  | nil => simp
  | cons x xs ih => simp [ih, add_assoc]

/-- C6: every score is non-negative, the empty text scores 0 in every
domain, and for a domain of the keyword table and non-empty text the score
is exactly the spec's weighted-occurrence formula. -/
theorem score_domain_nonneg_empty_formula (text domain : String) :
    0 ≤ score_domain text domain ∧
    score_domain "" domain = 0 ∧
    (∀ kv, DOMAIN_KEYWORDS.find? (fun p => p.1 == domain) = some kv →
      text ≠ "" → score_domain text domain = specDomainScore text kv.2) := by
  refine ⟨?_, ?_, ?_⟩
  · unfold score_domain
    cases hfind : DOMAIN_KEYWORDS.find? (fun kv => kv.1 == domain) with
    | none => simp
    | some kv =>
      by_cases ht : text == ""
      · simp [ht]
      · simp only [ht, if_false]
        apply div_nonneg
        · rw [foldl_add_eq_sum, foldl_add_eq_sum]
          have h1 : 0 ≤ (kv.2.primary.map (fun token =>
              3 * (countOccs (DomainScorer_norm text).data token.data : ℚ))).sum := by
            apply List.sum_nonneg
            intro x hx
            obtain ⟨tok, _, rfl⟩ := List.mem_map.mp hx
            positivity
          have h2 : 0 ≤ (kv.2.secondary.map (fun token =>
              1 * (countOccs (DomainScorer_norm text).data token.data : ℚ))).sum := by
            apply List.sum_nonneg
            intro x hx
            obtain ⟨tok, _, rfl⟩ := List.mem_map.mp hx
            positivity
          linarith
        · positivity
  · unfold score_domain
    cases hfind : DOMAIN_KEYWORDS.find? (fun kv => kv.1 == domain) with
    | none => simp
    | some kv => simp
  · intro kv hfind hne
    unfold score_domain specDomainScore
    rw [hfind]
    have ht : (text == "") = false := by
      simpa using hne
    simp only [ht, Bool.false_eq_true, if_false]
    rw [foldl_add_eq_sum, foldl_add_eq_sum, zero_add]

/-- Witness for C6 at a concrete health-domain text. -/
theorem score_domain_formula_witness :
    0 ≤ score_domain "laudo do hemograma" "pessoal_saude" ∧
    score_domain "" "pessoal_saude" = 0 ∧
    score_domain "laudo do hemograma" "pessoal_saude" =
      specDomainScore "laudo do hemograma" pessoalSaudeCfg :=
  ⟨(score_domain_nonneg_empty_formula "laudo do hemograma" "pessoal_saude").1,
   (score_domain_nonneg_empty_formula "laudo do hemograma" "pessoal_saude").2.1,
   (score_domain_nonneg_empty_formula "laudo do hemograma" "pessoal_saude").2.2
     ("pessoal_saude", pessoalSaudeCfg) (by decide) (by decide)⟩

-- ## SmartOrganizer._resolve_category_key (organizer.py lines 281-298)

/-- `SmartOrganizer._resolve_category_key`: exact membership short-circuit;
else the first valid key whose normalization equals the token's
normalization; else the first valid key such that the normalized token and
the raw key contain one another and the normalized token is longer than 4
characters (in the Python loop the length test sits inside the body, but
since it does not depend on the key the loop equals this conjunctive
search); else `"outros"`. -/
def resolve_category_key (validKeys : List String) (aiOutput : String) : String :=
  if validKeys.contains aiOutput then aiOutput
  else
    match validKeys.find? (fun key =>
        normalize_string key == normalize_string aiOutput) with
    | some key => key
    | none =>
      match validKeys.find? (fun key =>
          (substr (normalize_string aiOutput).data key.data ||
            substr key.data (normalize_string aiOutput).data) &&
          decide (4 < (normalize_string aiOutput).length)) with
      | some key => key
      | none => "outros"

/-- C4 counterexample: with the single valid key `"júridico"` and the raw
token `"juridic"`, the normalized token (`"juridic"`, 7 characters) is a
substring of the normalized key (`"juridico"`), so by the claim the key
should be returned; but the code's third tier matches against the RAW key
(which still carries the accent), finds nothing, and falls back to
`"outros"`. -/
theorem resolve_category_normalized_substring_counterexample :
    normalize_string "juridic" = "juridic" ∧
    normalize_string "júridico" = "juridico" ∧
    substr (normalize_string "juridic").data (normalize_string "júridico").data = true ∧
    4 < (normalize_string "juridic").length ∧
    ["júridico"].contains "juridic" = false ∧
    normalize_string "júridico" ≠ normalize_string "juridic" ∧
    resolve_category_key ["júridico"] "juridic" = "outros" := by
  decide

/-- C4 (amended): category resolution is three-tier — an exact key match
returns the token; otherwise a key whose normalization (case-fold + strip
diacritics) equals the token's normalization is returned; otherwise, if the
normalized token is longer than 4 characters and the normalized token and a
RAW valid key are substrings of each other in either direction, such a key
is returned; otherwise `"outros"`. -/
theorem resolve_category_three_tier (validKeys : List String) (aiOutput : String) :
    (validKeys.contains aiOutput = true →
      resolve_category_key validKeys aiOutput = aiOutput) ∧
    (validKeys.contains aiOutput = false →
      (∃ k ∈ validKeys, normalize_string k = normalize_string aiOutput) →
      resolve_category_key validKeys aiOutput ∈ validKeys ∧
      normalize_string (resolve_category_key validKeys aiOutput) =
        normalize_string aiOutput) ∧
    (validKeys.contains aiOutput = false →
      (∀ k ∈ validKeys, normalize_string k ≠ normalize_string aiOutput) →
      (∃ k ∈ validKeys,
        (substr (normalize_string aiOutput).data k.data ||
          substr k.data (normalize_string aiOutput).data) = true ∧
        4 < (normalize_string aiOutput).length) →
      resolve_category_key validKeys aiOutput ∈ validKeys ∧
      (substr (normalize_string aiOutput).data
          (resolve_category_key validKeys aiOutput).data ||
        substr (resolve_category_key validKeys aiOutput).data
          (normalize_string aiOutput).data) = true) ∧
    (validKeys.contains aiOutput = false →
      (∀ k ∈ validKeys, normalize_string k ≠ normalize_string aiOutput) →
      (∀ k ∈ validKeys, ¬((substr (normalize_string aiOutput).data k.data ||
          substr k.data (normalize_string aiOutput).data) = true ∧
        4 < (normalize_string aiOutput).length)) →
      resolve_category_key validKeys aiOutput = "outros") := by
  refine ⟨?_, ?_, ?_, ?_⟩
  · intro h
    unfold resolve_category_key
    rw [if_pos h]
  · intro h ⟨k, hk, hnorm⟩
    unfold resolve_category_key
    rw [if_neg (by rw [h]; exact Bool.false_ne_true)]
    cases hf : validKeys.find? (fun key =>
        normalize_string key == normalize_string aiOutput) with
    | none =>
      exact absurd (beq_iff_eq.mpr hnorm)
        (by simpa using List.find?_eq_none.mp hf k hk)
    | some k0 =>
      have hp := List.find?_some hf
      simp only [beq_iff_eq] at hp
      show k0 ∈ validKeys ∧ normalize_string k0 = normalize_string aiOutput
      exact ⟨List.mem_of_find?_eq_some hf, hp⟩
  · intro h hnone ⟨k, hk, hsub, hlen⟩
    unfold resolve_category_key
    rw [if_neg (by rw [h]; exact Bool.false_ne_true)]
    have hf1 : validKeys.find? (fun key =>
        normalize_string key == normalize_string aiOutput) = none := by
      rw [List.find?_eq_none]
      intro x hx
      simpa using hnone x hx
    rw [hf1]
    cases hf2 : validKeys.find? (fun key =>
        (substr (normalize_string aiOutput).data key.data ||
          substr key.data (normalize_string aiOutput).data) &&
        decide (4 < (normalize_string aiOutput).length)) with
    | none =>
      have := List.find?_eq_none.mp hf2 k hk
      rw [hsub] at this
      simp [hlen] at this
    | some k0 =>
      have hp := List.find?_some hf2
      simp only [Bool.and_eq_true, decide_eq_true_eq] at hp
      show k0 ∈ validKeys ∧
        (substr (normalize_string aiOutput).data k0.data ||
          substr k0.data (normalize_string aiOutput).data) = true
      exact ⟨List.mem_of_find?_eq_some hf2, hp.1⟩
  · intro h hnone hnone2
    unfold resolve_category_key
    rw [if_neg (by rw [h]; exact Bool.false_ne_true)]
    have hf1 : validKeys.find? (fun key =>
        normalize_string key == normalize_string aiOutput) = none := by
      rw [List.find?_eq_none]
      intro x hx
      simpa using hnone x hx
    have hf2 : validKeys.find? (fun key =>
        (substr (normalize_string aiOutput).data key.data ||
          substr key.data (normalize_string aiOutput).data) &&
        decide (4 < (normalize_string aiOutput).length)) = none := by
      rw [List.find?_eq_none]
      intro x hx
      have := hnone2 x hx
      simp only [Bool.and_eq_true, decide_eq_true_eq]
      intro hand
      exact this ⟨hand.1, hand.2⟩
    rw [hf1, hf2]

/-- Witness for the amended C4 at a token that differs from a valid key
only by case and an accent. -/
theorem resolve_category_three_tier_witness :
    resolve_category_key ["juridico", "outros"] "Jurídico" ∈ ["juridico", "outros"] ∧
    normalize_string (resolve_category_key ["juridico", "outros"] "Jurídico") =
      normalize_string "Jurídico" :=
  (resolve_category_three_tier ["juridico", "outros"] "Jurídico").2.1
    (by decide) ⟨"juridico", by decide, by decide⟩

-- ## Filename sanitization in process_file (organizer.py lines 620-624)

/-- The character class kept by the regex `re.sub(r"[^a-zA-Z0-9_\-\.]", "", ·)`. -/
def isAllowedChar (c : Char) : Bool :=
  ('a' ≤ c && c ≤ 'z') || ('A' ≤ c && c ≤ 'Z') || ('0' ≤ c && c ≤ '9') ||
    c == '_' || c == '-' || c == '.'

/-- Filename sanitization of `SmartOrganizer.process_file`: strip single
and double quotes, drop every character outside the allowed class, then
append the original extension when the result does not already end with it
case-insensitively. -/
def sanitizeNewName (rawName : String) (origSuffix : String) : String :=
  let noQuotes := rawName.data.filter
    (fun c => !(c == Char.ofNat 39) && !(c == Char.ofNat 34))
  let cleaned : String := ⟨noQuotes.filter isAllowedChar⟩
  if (lowerStr origSuffix).data.isSuffixOf (lowerStr cleaned).data then cleaned
  else cleaned ++ origSuffix

/-- C5 counterexample, both conjuncts of the claim failing: a proposed name
`"A.PDF"` for the original file `"report.pdf"` sanitizes to `"A.PDF"`,
which does not end (case-sensitively) with the original extension
`".pdf"`; and a proposed name `"doc.pdf"` for the original file
`"scan.pdfé"` sanitizes to `"doc.pdf.pdfé"`, which contains the character
`é` outside `[A-Za-z0-9_.-]`. -/
theorem sanitize_name_counterexample :
    (pathSuffix "report.pdf" = ".pdf" ∧
      sanitizeNewName "A.PDF" (pathSuffix "report.pdf") = "A.PDF" ∧
      (pathSuffix "report.pdf").data.isSuffixOf
        (sanitizeNewName "A.PDF" (pathSuffix "report.pdf")).data = false) ∧
    (pathSuffix "scan.pdfé" = ".pdfé" ∧
      (sanitizeNewName "doc.pdf" (pathSuffix "scan.pdfé")).data.all isAllowedChar
        = false) := by
  decide

/-- C5 (amended): for every raw proposed name and every original file
name, the sanitized result consists only of characters of
`[A-Za-z0-9_.-]` or characters of the original file's extension (the
latter can appear only through the appended extension), and it ends
case-insensitively with the original file's extension. -/
theorem sanitize_name_charset_and_extension (rawName fileName : String) :
    ((sanitizeNewName rawName (pathSuffix fileName)).data.all
      (fun c => isAllowedChar c || (pathSuffix fileName).data.contains c)) = true ∧
    (lowerStr (pathSuffix fileName)).data.isSuffixOf
      (lowerStr (sanitizeNewName rawName (pathSuffix fileName))).data = true := by
  set suf := pathSuffix fileName with hsuf
  unfold sanitizeNewName
  set cleaned : String := ⟨(rawName.data.filter
    (fun c => !(c == Char.ofNat 39) && !(c == Char.ofNat 34))).filter isAllowedChar⟩
    with hcleaned
  have hclean_all : cleaned.data.all
      (fun c => isAllowedChar c || suf.data.contains c) = true := by
    rw [List.all_eq_true]
    intro c hc
    rw [hcleaned] at hc
    have := (List.mem_filter.mp hc).2
    simp [this]
  by_cases hend : (lowerStr suf).data.isSuffixOf (lowerStr cleaned).data
  · rw [if_pos hend]
    exact ⟨hclean_all, hend⟩
  · rw [if_neg hend]
    constructor
    · rw [List.all_eq_true]
      intro c hc
      rw [String.data_append] at hc
      rcases List.mem_append.mp hc with hc1 | hc2
      · exact List.all_eq_true.mp hclean_all c hc1
      · have hcont : suf.data.contains c = true := List.elem_iff.mpr hc2
        rw [Bool.or_eq_true]
        exact Or.inr hcont
    · have hmap : (lowerStr (cleaned ++ suf)).data =
          (lowerStr cleaned).data ++ (lowerStr suf).data := by
        simp [lowerStr, String.data_append]
      rw [hmap, List.isSuffixOf_iff_suffix]
      exact List.suffix_append _ _

-- ## The pre-analysis guards of process_file (organizer.py lines 585-600)

/-- Outcome of the pre-analysis phase of `SmartOrganizer.process_file`:
`skip` means the function returned before any extraction, classification
or mutation; `analyze` means it went on to extract content. -/
inductive ProcOutcome
  | skip
  | analyze
deriving DecidableEq

/-- The guard sequence of `process_file`, in source order: nonexistent
path, directory, ignored extension (case-insensitive), ignored name
prefix, or a configured category path occurring as a substring of the
parent directory's path string (`str(data["path"]) in str(filepath.parent)`). -/
def process_file_guard (fileExists isDir : Bool)
    (ignoreExtensions ignorePrefixList catPaths : List String)
    (parent name : String) : ProcOutcome :=
  if !fileExists then .skip
  else if isDir then .skip
  else if (ignoreExtensions.map lowerStr).contains (lowerStr (pathSuffix name)) then .skip
  else if ignorePrefixList.any (fun p => strStartsWith name p) then .skip
  else if catPaths.any (fun cp => substr cp.data parent.data) then .skip
  else .analyze

/-- Path containment as the spec means it: the parent directory is a
category path or lies strictly below one. -/
def residesUnder (parent : String) (catPaths : List String) : Bool :=
  catPaths.any (fun cp => parent == cp || strStartsWith parent (cp ++ "/"))

theorem substr_of_isPrefixOf (pat s : List Char) (h : pat.isPrefixOf s = true) :
    substr pat s = true := by
  cases s with
  | nil => simpa [substr] using h
  | cons c rest => simp [substr, h]

theorem substr_parent_of_residesUnder (parent cp : String)
    (h : (parent == cp || strStartsWith parent (cp ++ "/")) = true) :
    substr cp.data parent.data = true := by
  rcases Bool.or_eq_true _ _ |>.mp h with heq | hpre
  · have : parent = cp := eq_of_beq heq
    subst this
    exact substr_of_isPrefixOf _ _ (by simp [List.isPrefixOf_iff_prefix])
  · unfold strStartsWith at hpre
    rw [List.isPrefixOf_iff_prefix] at hpre
    apply substr_of_isPrefixOf
    rw [List.isPrefixOf_iff_prefix]
    calc cp.data <+: cp.data ++ "/".data := List.prefix_append _ _
      _ = (cp ++ "/").data := (String.data_append _ _).symm
      _ <+: parent.data := hpre

/-- C8: a file whose parent directory lies under any configured category
directory is skipped by `process_file` before any extraction,
classification or mutation, so a second orchestrator run over an
already-organized file is a no-op. -/
theorem process_file_skips_already_organized (fileExists isDir : Bool)
    (ignoreExtensions ignorePrefixList catPaths : List String) (parent name : String)
    (h : residesUnder parent catPaths = true) :
    process_file_guard fileExists isDir ignoreExtensions ignorePrefixList catPaths
      parent name = ProcOutcome.skip := by
  have hsub : catPaths.any (fun cp => substr cp.data parent.data) = true := by
    rw [List.any_eq_true]
    obtain ⟨cp, hcp, hor⟩ := List.any_eq_true.mp h
    exact ⟨cp, hcp, substr_parent_of_residesUnder parent cp hor⟩
  unfold process_file_guard
  split_ifs <;> first | rfl | (exact absurd hsub (by assumption))

/-- Witness for C8: a file directly inside a configured category
directory is skipped. -/
theorem process_file_skips_already_organized_witness :
    residesUnder "/cloud/Docs/juridico" ["/cloud/Docs/juridico"] = true ∧
    process_file_guard true false [".tmp"] ["."] ["/cloud/Docs/juridico"]
      "/cloud/Docs/juridico" "processo.pdf" = ProcOutcome.skip :=
  ⟨by decide,
   process_file_skips_already_organized true false [".tmp"] ["."]
     ["/cloud/Docs/juridico"] "/cloud/Docs/juridico" "processo.pdf" (by decide)⟩

/-- C9: the already-organized guard is substring matching, not path
containment — whenever some category path occurs as a substring of the
parent directory's path string, the file is skipped before any processing,
even when the parent does not actually lie under any category directory
(for example a sibling directory whose name extends a category path). -/
theorem guard_substring_skips_non_contained (fileExists isDir : Bool)
    (ignoreExtensions ignorePrefixList catPaths : List String) (parent name : String)
    (hsub : catPaths.any (fun cp => substr cp.data parent.data) = true)
    (hnot : residesUnder parent catPaths = false) :
    process_file_guard fileExists isDir ignoreExtensions ignorePrefixList catPaths
      parent name = ProcOutcome.skip := by
  unfold process_file_guard
  split_ifs <;> first | rfl | (exact absurd hsub (by assumption))

/-- Witness for C9: `/cloud/Docs/juridico_backup` is not under the
category directory `/cloud/Docs/juridico`, yet a file there is silently
skipped. -/
theorem guard_substring_skips_non_contained_witness :
    residesUnder "/cloud/Docs/juridico_backup" ["/cloud/Docs/juridico"] = false ∧
    process_file_guard true false [".tmp"] ["."] ["/cloud/Docs/juridico"]
      "/cloud/Docs/juridico_backup" "processo.pdf" = ProcOutcome.skip :=
  ⟨by decide,
   guard_substring_skips_non_contained true false [".tmp"] ["."]
     ["/cloud/Docs/juridico"] "/cloud/Docs/juridico_backup" "processo.pdf"
     (by decide) (by decide)⟩

-- ## SmartOrganizer._execute_local_first_strategy (organizer.py lines 519-583)

/-- Lines 527-536: the locally renamed target.  The current path is kept
when the name already matches, otherwise the target name beside the
source; then, if a file already exists at the resulting path, a
`_<timestamp>` suffix is inserted before the extension.  Returns the
path and the final name. -/
def computeLocalRenamed (fs : List String) (srcDir srcName newName : String)
    (timestamp : Nat) : String × String :=
  let renamedName0 := if srcName == newName then srcName else newName
  let renamed0 := pathJoin srcDir renamedName0
  if fs.contains renamed0 then
    let nn := pathStem renamedName0 ++ "_" ++ toString timestamp ++ pathSuffix renamedName0
    (pathJoin srcDir nn, nn)
  else (renamed0, renamedName0)

/-- `_execute_local_first_strategy` over a filesystem modelled as the list
of existing file paths.  Fallible OS calls are atomic oracles (`renameOk`,
`mkdirOk`, `copyOk`, `unlinkOk`); `destDirExists` models
`dest_dir.exists()` (directories are not tracked in the file list);
tagging has no filesystem effect.  Returns the success flag and the final
filesystem. -/
def execute_local_first_strategy (fs : List String)
    (srcDir srcName destDir newName : String) (timestamp : Nat)
    (destDirExists renameOk mkdirOk copyOk unlinkOk : Bool) : Bool × List String :=
  let src := pathJoin srcDir srcName
  let rn := computeLocalRenamed fs srcDir srcName newName timestamp
  if !renameOk then (false, fs)
  else
    let fs1 := rn.1 :: ((fs.erase src).erase rn.1)
    if !(destDirExists || mkdirOk) then (false, fs1)
    else if !copyOk then (false, fs1)
    else
      let finalCloud := pathJoin destDir rn.2
      let fs2 := finalCloud :: (fs1.erase finalCloud)
      if unlinkOk then (true, fs2.erase rn.1) else (true, fs2)

/-- C1: when the copy-to-destination step fails (while the rename and the
destination directory steps went through), the disposition reports
failure, the locally renamed file still exists under its renamed path in
the source directory, and no file exists at the destination path. -/
theorem copy_failure_is_atomic (fs : List String)
    (srcDir srcName destDir newName : String) (timestamp : Nat)
    (destDirExists mkdirOk unlinkOk : Bool)
    (hdest : (destDirExists || mkdirOk) = true)
    (hfresh : pathJoin destDir (computeLocalRenamed fs srcDir srcName newName timestamp).2
      ∉ fs)
    (hne : pathJoin destDir (computeLocalRenamed fs srcDir srcName newName timestamp).2 ≠
      (computeLocalRenamed fs srcDir srcName newName timestamp).1) :
    (execute_local_first_strategy fs srcDir srcName destDir newName timestamp
        destDirExists true mkdirOk false unlinkOk).1 = false ∧
    (computeLocalRenamed fs srcDir srcName newName timestamp).1 ∈
      (execute_local_first_strategy fs srcDir srcName destDir newName timestamp
        destDirExists true mkdirOk false unlinkOk).2 ∧
    pathJoin destDir (computeLocalRenamed fs srcDir srcName newName timestamp).2 ∉
      (execute_local_first_strategy fs srcDir srcName destDir newName timestamp
        destDirExists true mkdirOk false unlinkOk).2 := by
  have key : ∀ dE mO : Bool, (dE || mO) = true →
      execute_local_first_strategy fs srcDir srcName destDir newName timestamp
        dE true mO false unlinkOk =
      (false, (computeLocalRenamed fs srcDir srcName newName timestamp).1 ::
        ((fs.erase (pathJoin srcDir srcName)).erase
          (computeLocalRenamed fs srcDir srcName newName timestamp).1)) := by
    intro dE mO hd
    cases dE <;> cases mO <;> first | rfl | simp at hd
  rw [key destDirExists mkdirOk hdest]
  refine ⟨rfl, List.mem_cons_self _ _, ?_⟩
  intro hmem
  rcases List.mem_cons.mp hmem with heq | htail
  · exact hne heq
  · exact hfresh (List.mem_of_mem_erase (List.mem_of_mem_erase htail))

/-- Witness for C1 at a concrete disposition whose copy step fails. -/
theorem copy_failure_is_atomic_witness :
    (execute_local_first_strategy ["/dl/a.pdf"] "/dl" "a.pdf" "/cloud/fin"
        "2024-01-01__Bank__Fatura.pdf" 1700000000 true true true false true).1 = false ∧
    (computeLocalRenamed ["/dl/a.pdf"] "/dl" "a.pdf"
        "2024-01-01__Bank__Fatura.pdf" 1700000000).1 ∈
      (execute_local_first_strategy ["/dl/a.pdf"] "/dl" "a.pdf" "/cloud/fin"
        "2024-01-01__Bank__Fatura.pdf" 1700000000 true true true false true).2 ∧
    pathJoin "/cloud/fin" (computeLocalRenamed ["/dl/a.pdf"] "/dl" "a.pdf"
        "2024-01-01__Bank__Fatura.pdf" 1700000000).2 ∉
      (execute_local_first_strategy ["/dl/a.pdf"] "/dl" "a.pdf" "/cloud/fin"
        "2024-01-01__Bank__Fatura.pdf" 1700000000 true true true false true).2 :=
  copy_failure_is_atomic ["/dl/a.pdf"] "/dl" "a.pdf" "/cloud/fin"
    "2024-01-01__Bank__Fatura.pdf" 1700000000 true true true
    (by decide) (by decide) (by decide)

/-- C2 is a code bug, evidenced here: when the file's current name already
equals the target name (`doc.pdf`), the existence check at line 534 sees
the source file itself, so the timestamp disambiguation fires and the file
is renamed to `doc_<timestamp>.pdf` — even though no *different* file of
the target name exists and the code's own log line claims the name is
already correct and the rename skipped.  A fully successful disposition
then files the document in the cloud under the timestamped name. -/
theorem rename_skip_bug :
    computeLocalRenamed ["/dl/doc.pdf"] "/dl" "doc.pdf" "doc.pdf" 1700000000 =
      ("/dl/doc_1700000000.pdf", "doc_1700000000.pdf") ∧
    execute_local_first_strategy ["/dl/doc.pdf"] "/dl" "doc.pdf" "/cloud/fin"
        "doc.pdf" 1700000000 true true true true true =
      (true, ["/cloud/fin/doc_1700000000.pdf"]) := by
  decide

-- ## The PDF branch of extract_content (organizer.py lines 357-372)

/-- The PDF branch of `SmartOrganizer.extract_content` together with the
blanket exception handler at lines 389-391.  `pages` holds the text of
each page of the document.  Digital text is read from at most the first 2
pages.  If the stripped digital text has fewer than 50 characters and the
document has at least one page, line 366 evaluates
`doc.get_pixmap(dpi=200)`; modelled from the PyMuPDF API, `fitz.Document`
has no attribute `get_pixmap` (page rasterization is `Page.get_pixmap`,
or `Document.get_page_pixmap(pno, ...)`), so this attribute access raises
`AttributeError`, which the enclosing `except Exception` handler catches,
logging the error and returning `None` — the unreadable/aborted outcome.
The OCR/cleanup code of lines 369-372 is unreachable. -/
def extract_content_pdf (pages : List String) : Option String :=
  let text := String.join (pages.take 2)
  if (pyStrip text.data).length < 50 then
    if 0 < pages.length then
      none
    else some (strTake text 5000)
  else some (strTake text 5000)

/-- C3 is a code bug, evidenced here: every PDF with at least one page
and fewer than 50 stripped characters of digital text — the scanned-PDF
case the claim is about — yields the aborted outcome `none` instead of a
normal outcome carrying OCR text, because `doc.get_pixmap` does not exist
on `fitz.Document` (see `extract_content_pdf`).  A zero-page PDF and a
text-rich PDF still return normal outcomes. -/
theorem scanned_pdf_aborts :
    extract_content_pdf [""] = none ∧
    extract_content_pdf ["laudo hemograma", ""] = none ∧
    extract_content_pdf [] = some "" ∧
    extract_content_pdf [String.mk (List.replicate 60 'a')] =
      some (String.mk (List.replicate 60 'a')) := by
  decide

-- ## The raster-image branch of extract_content (organizer.py lines 374-381)

inductive ImgEvent
  | enhanceAttempt (input : String) (result : Option String)
  | visionOcr (path : String)
  | tesseractOcr (path : String)
  | unlinkTemp (path : String)
deriving DecidableEq

/-- `_enhance_image_for_ocr` (lines 334-345): on success the enhanced copy
is written to `/tmp/enhance_<stem>.png`; on any failure the function
degrades by returning the original path unchanged.  `enhanceOk` is the
success oracle. -/
def enhanceResultPath (filepath : String) (enhanceOk : Bool) : String :=
  if enhanceOk then "/tmp/enhance_" ++ pathStem (lastComponent filepath) ++ ".png"
  else filepath

/-- The raster-image branch of `extract_content`: enhance, OCR the
processed path (Apple Vision when available, pytesseract otherwise), then
unlink the processed path when it starts with `/tmp/`.  Returns the
extracted text and the ordered list of side-effect events. -/
def extract_content_image (filepath : String) (enhanceOk visionAvailable : Bool)
    (ocrText : String) : Option String × List ImgEvent :=
  let processed := enhanceResultPath filepath enhanceOk
  let ocrEvent : ImgEvent :=
    if visionAvailable then .visionOcr processed else .tesseractOcr processed
  let cleanupEvents : List ImgEvent :=
    if strStartsWith processed "/tmp/" then [.unlinkTemp processed] else []
  (some (strTake ocrText 5000),
    .enhanceAttempt filepath (if enhanceOk then some processed else none) ::
      ocrEvent :: cleanupEvents)

/-- Paths unlinked during the image branch. -/
def imgDeleted (evs : List ImgEvent) : List String :=
  evs.flatMap (fun e => match e with
    | .unlinkTemp p => [p]
    | _ => [])

/-- Paths written to during the image branch (only a successful
enhancement writes a file). -/
def imgWritten (evs : List ImgEvent) : List String :=
  evs.flatMap (fun e => match e with
    | .enhanceAttempt _ (some out) => [out]
    | _ => [])

theorem strStartsWith_append (a b p : String) (h : strStartsWith a p = true) :
    strStartsWith (a ++ b) p = true := by
  unfold strStartsWith at h ⊢
  rw [List.isPrefixOf_iff_prefix] at h ⊢
  rw [String.data_append]
  exact h.trans (List.prefix_append _ _)

/-- C10: when image enhancement fails for a raster image whose own path
begins with `/tmp/`, `extract_content` runs OCR on the original path and
then unlinks the original input file; for an image whose path is outside
`/tmp/`, the input file is never deleted nor written to, whatever the
enhancement and OCR backend outcomes. -/
theorem extract_image_input_deletion (filepath ocrText : String)
    (enhanceOk visionAvailable : Bool) :
    (enhanceOk = false → strStartsWith filepath "/tmp/" = true →
      (extract_content_image filepath enhanceOk visionAvailable ocrText).2 =
        [ImgEvent.enhanceAttempt filepath none,
         (if visionAvailable then ImgEvent.visionOcr filepath
          else ImgEvent.tesseractOcr filepath),
         ImgEvent.unlinkTemp filepath]) ∧
    (strStartsWith filepath "/tmp/" = false →
      filepath ∉ imgDeleted
        (extract_content_image filepath enhanceOk visionAvailable ocrText).2 ∧
      filepath ∉ imgWritten
        (extract_content_image filepath enhanceOk visionAvailable ocrText).2) := by
  constructor
  · intro hfail htmp
    subst hfail
    simp [extract_content_image, enhanceResultPath, htmp]
  · intro houtside
    cases enhanceOk with
    | false =>
      cases visionAvailable <;>
        exact ⟨by simp [extract_content_image, enhanceResultPath, imgDeleted, houtside],
               by simp [extract_content_image, enhanceResultPath, imgWritten, houtside]⟩
    | true =>
      have hproc : strStartsWith
          ("/tmp/enhance_" ++ pathStem (lastComponent filepath) ++ ".png")
          "/tmp/" = true := by
        apply strStartsWith_append
        apply strStartsWith_append
        decide
      have hneq : "/tmp/enhance_" ++ pathStem (lastComponent filepath) ++ ".png" ≠
          filepath := by
        intro heq
        rw [heq] at hproc
        rw [hproc] at houtside
        exact Bool.noConfusion houtside
      have hneq2 : filepath ≠
          "/tmp/enhance_" ++ pathStem (lastComponent filepath) ++ ".png" :=
        fun heq => hneq heq.symm
      cases visionAvailable <;>
        exact ⟨by simp [extract_content_image, enhanceResultPath, imgDeleted,
                 hproc, hneq2],
               by simp [extract_content_image, enhanceResultPath, imgWritten,
                 hproc, hneq2]⟩

/-- Witness for C10: with failing enhancement, a `/tmp/` input image is
OCRed then unlinked; an input image under `/Users` is neither deleted nor
written to. -/
theorem extract_image_input_deletion_witness :
    (extract_content_image "/tmp/scan.jpg" false true "laudo").2 =
      [ImgEvent.enhanceAttempt "/tmp/scan.jpg" none,
       ImgEvent.visionOcr "/tmp/scan.jpg",
       ImgEvent.unlinkTemp "/tmp/scan.jpg"] ∧
    ("/Users/u/scan.jpg" ∉ imgDeleted
        (extract_content_image "/Users/u/scan.jpg" true true "laudo").2 ∧
     "/Users/u/scan.jpg" ∉ imgWritten
        (extract_content_image "/Users/u/scan.jpg" true true "laudo").2) :=
  ⟨by simpa using
      (extract_image_input_deletion "/tmp/scan.jpg" "laudo" false true).1 rfl (by decide),
   (extract_image_input_deletion "/Users/u/scan.jpg" "laudo" true true).2 (by decide)⟩
